import Mathlib

/-!
Shallow embedding of `backend.py` from the GENAI-powered interview platform:
the interview session state machine (`InterviewState`), the four HTTP
operations (`upload_resume`, `get_next_question`, `transcribe_audio`,
`generate_feedback`) and the response-extraction helpers
(`extract_question_from_response`, the feedback JSON extraction).

External collaborators (PDF text extraction, Deepgram transcription, the
Groq chat model, gTTS synthesis) are modelled as oracle inputs: each
operation takes the collaborator's outcome (`Option String` / `Bool`) as an
argument.  `json.loads` is embedded by an executable JSON parser over
`List Char`; Python floats are modelled exactly as rationals (no claim in
scope depends on IEEE-754 rounding).  HTTP status-code rewrapping by the
broad `except Exception` handlers is abstracted: the `ApiError` constructor
records which failure branch of the source fired.
-/

namespace GenAIInterview

/-- Python values produced by `json.loads`: null, bools, ints, floats
(modelled as rationals), the `NaN`/`Infinity`/`-Infinity` float constants
(kept symbolic), strings, lists and dicts (assoc lists in insertion order,
duplicate keys collapsed at parse time exactly as a Python dict does). -/
inductive JVal where
  | jnull : JVal
  | jbool : Bool → JVal
  | jint : Int → JVal
  | jfloat : ℚ → JVal
  | jconst : String → JVal
  | jstr : String → JVal
  | jarr : List JVal → JVal
  | jobj : List (String × JVal) → JVal

/-- The `{` character (written via its code point, as it appears in the
source's `response_content.find` call). -/
def lbrace : Char := Char.ofNat 123

/-- The `}` character. -/
def rbrace : Char := Char.ofNat 125

/-- JSON whitespace accepted between tokens by `json.loads`. -/
def isJsonWs (c : Char) : Bool :=
  c = ' ' || c = '\t' || c = '\n' || c = '\r'

/-- Drop leading JSON whitespace. -/
def skipWs : List Char → List Char
  | [] => []
  | c :: cs => if isJsonWs c then skipWs cs else c :: cs

/-- Split a maximal run of decimal digits off the front. -/
def takeDigits : List Char → List Char × List Char
  | [] => ([], [])
  | c :: cs =>
    if c.isDigit then
      let p := takeDigits cs
      (c :: p.1, p.2)
    else ([], c :: cs)

/-- Numeric value of a digit run. -/
def digitsVal (ds : List Char) : Nat :=
  ds.foldl (fun a c => 10 * a + (c.toNat - 48)) 0

/-- Value of one hexadecimal digit, if any. -/
def hexDigitVal (c : Char) : Option Nat :=
  let n := c.toNat
  if 48 ≤ n ∧ n ≤ 57 then some (n - 48)
  else if 97 ≤ n ∧ n ≤ 102 then some (n - 87)
  else if 65 ≤ n ∧ n ≤ 70 then some (n - 55)
  else none

/-- Four hex digits of a `\uXXXX` escape. -/
def parse4Hex : List Char → Option (Nat × List Char)
  | a :: b :: c :: d :: rest =>
    match hexDigitVal a, hexDigitVal b, hexDigitVal c, hexDigitVal d with
    | some va, some vb, some vc, some vd =>
      some (((va * 16 + vb) * 16 + vc) * 16 + vd, rest)
    | _, _, _, _ => none
  | _ => none

/-- Consume an expected literal character sequence. -/
def dropLit : List Char → List Char → Option (List Char)
  | [], cs => some cs
  | p :: ps, c :: cs => if c = p then dropLit ps cs else none
  | _ :: _, [] => none

/-- Body of a JSON string literal (opening quote already consumed), with the
escapes `json.loads` accepts; unescaped control characters are rejected
(strict mode).  Surrogate `\uXXXX` pairs are combined as Python does; a lone
surrogate code point (unrepresentable as a Lean `Char`) degrades to
`Char.ofNat`'s default.  Returns the decoded characters and the remainder
after the closing quote. -/
def parseStringBody : Nat → List Char → Option (List Char × List Char)
  | 0, _ => none
  | _, [] => none
  | fuel + 1, c :: cs =>
    if c = '"' then some ([], cs)
    else if c = '\\' then
      match cs with
      | [] => none
      | e :: cs2 =>
        let simpleEsc : Option Char :=
          if e = '"' then some '"'
          else if e = '\\' then some '\\'
          else if e = '/' then some '/'
          else if e = 'b' then some (Char.ofNat 8)
          else if e = 'f' then some (Char.ofNat 12)
          else if e = 'n' then some '\n'
          else if e = 'r' then some '\r'
          else if e = 't' then some '\t'
          else none
        match simpleEsc with
        | some ch =>
          match parseStringBody fuel cs2 with
          | some (body, rest) => some (ch :: body, rest)
          | none => none
        | none =>
          if e = 'u' then
            match parse4Hex cs2 with
            | none => none
            | some (hi, cs3) =>
              if 55296 ≤ hi ∧ hi ≤ 56319 then
                match cs3 with
                | c1 :: c2 :: cs4 =>
                  if c1 = '\\' ∧ c2 = 'u' then
                    match parse4Hex cs4 with
                    | some (lo, cs5) =>
                      if 56320 ≤ lo ∧ lo ≤ 57343 then
                        let cp := 65536 + (hi - 55296) * 1024 + (lo - 56320)
                        match parseStringBody fuel cs5 with
                        | some (body, rest) => some (Char.ofNat cp :: body, rest)
                        | none => none
                      else
                        match parseStringBody fuel cs4 with
                        | some (body, rest) =>
                          some (Char.ofNat hi :: Char.ofNat lo :: body, rest)
                        | none => none
                    | none =>
                      match parseStringBody fuel cs3 with
                      | some (body, rest) => some (Char.ofNat hi :: body, rest)
                      | none => none
                  else
                    match parseStringBody fuel cs3 with
                    | some (body, rest) => some (Char.ofNat hi :: body, rest)
                    | none => none
                | _ =>
                  match parseStringBody fuel cs3 with
                  | some (body, rest) => some (Char.ofNat hi :: body, rest)
                  | none => none
              else
                match parseStringBody fuel cs3 with
                | some (body, rest) => some (Char.ofNat hi :: body, rest)
                | none => none
          else none
    else if c.toNat < 32 then none
    else
      match parseStringBody fuel cs with
      | some (body, rest) => some (c :: body, rest)
      | none => none

/-- A JSON number starting at the given characters, following the grammar
`json.loads` uses: `-?(0|[1-9][0-9]*)(.[0-9]+)?([eE][-+]?[0-9]+)?`.  A pure
integer literal becomes a Python `int` (`jint`); a fractional part or an
exponent makes it a Python `float` (`jfloat`, exact rational value). -/
def parseNumber (cs : List Char) : Option (JVal × List Char) :=
  let p : Bool × List Char :=
    match cs with
    | c :: rest => if c = '-' then (true, rest) else (false, cs)
    | [] => (false, [])
  let neg := p.1
  match p.2 with
  | [] => none
  | c :: _ =>
    if c.isDigit then
      let ipPair : List Char × List Char :=
        if c = '0' then (['0'], p.2.tail) else takeDigits p.2
      let ip := ipPair.1
      let r1 := ipPair.2
      let fracPair : List Char × List Char :=
        match r1 with
        | '.' :: d :: _ => if d.isDigit then takeDigits r1.tail else ([], r1)
        | _ => ([], r1)
      let fd := fracPair.1
      let r2 := fracPair.2
      let expTriple : Bool × List Char × List Char :=
        match r2 with
        | e :: rest =>
          if e = 'e' ∨ e = 'E' then
            match rest with
            | s :: rest2 =>
              if s = '-' then
                (match takeDigits rest2 with
                 | ([], _) => (false, [], r2)
                 | (ds, r3) => (true, ds, r3))
              else if s = '+' then
                (match takeDigits rest2 with
                 | ([], _) => (false, [], r2)
                 | (ds, r3) => (false, ds, r3))
              else
                (match takeDigits rest with
                 | ([], _) => (false, [], r2)
                 | (ds, r3) => (false, ds, r3))
            | [] => (false, [], r2)
          else (false, [], r2)
        | [] => (false, [], r2)
      let eneg := expTriple.1
      let ed := expTriple.2.1
      let r3 := expTriple.2.2
      if fd = [] ∧ ed = [] then
        let n : Int := Int.ofNat (digitsVal ip)
        some (.jint (if neg then -n else n), r1)
      else
        let base : ℚ :=
          (digitsVal ip : ℚ) + (digitsVal fd : ℚ) / ((10 : ℚ) ^ fd.length)
        let scaled : ℚ :=
          if ed = [] then base
          else if eneg then base / ((10 : ℚ) ^ digitsVal ed)
          else base * ((10 : ℚ) ^ digitsVal ed)
        some (.jfloat (if neg then -scaled else scaled), r3)
    else none

/-- Insert a key/value pair into a parsed object the way building a Python
dict does: a duplicate key overwrites the value in place, a fresh key is
appended. -/
def dictInsert (entries : List (String × JVal)) (k : String) (v : JVal) :
    List (String × JVal) :=
  if entries.any (fun e => e.1 = k) then
    entries.map (fun e => if e.1 = k then (k, v) else e)
  else entries ++ [(k, v)]

/-- Parsing mode for the single fuelled JSON scanner: a value, the rest of
an object body, or the rest of an array body. -/
inductive PMode where
  | value : PMode
  | objRest : List (String × JVal) → Bool → PMode
  | arrRest : List JVal → Bool → PMode

/-- The recursive JSON scanner behind `json_loads`, structurally recursive
on fuel so that it evaluates by `rfl`/`decide`.  Mirrors the grammar
`json.loads` accepts (including the non-standard `NaN`/`Infinity`/
`-Infinity` constants Python allows by default). -/
def parseRun : Nat → PMode → List Char → Option (JVal × List Char)
  | 0, _, _ => none
  | fuel + 1, .value, cs =>
    match skipWs cs with
    | [] => none
    | c :: rest =>
      if c = '"' then
        match parseStringBody (rest.length + 1) rest with
        | some (body, r) => some (.jstr body.asString, r)
        | none => none
      else if c = lbrace then parseRun fuel (.objRest [] true) rest
      else if c = '[' then parseRun fuel (.arrRest [] true) rest
      else if c = 't' then
        (dropLit ['r', 'u', 'e'] rest).map (fun r => (.jbool true, r))
      else if c = 'f' then
        (dropLit ['a', 'l', 's', 'e'] rest).map (fun r => (.jbool false, r))
      else if c = 'n' then
        (dropLit ['u', 'l', 'l'] rest).map (fun r => (.jnull, r))
      else if c = 'N' then
        (dropLit ['a', 'N'] rest).map (fun r => (.jconst "NaN", r))
      else if c = 'I' then
        (dropLit ['n', 'f', 'i', 'n', 'i', 't', 'y'] rest).map
          (fun r => (.jconst "Infinity", r))
      else if c = '-' then
        match rest with
        | 'I' :: r2 =>
          (dropLit ['n', 'f', 'i', 'n', 'i', 't', 'y'] r2).map
            (fun r => (.jconst "-Infinity", r))
        | _ => parseNumber (c :: rest)
      else if c.isDigit then parseNumber (c :: rest)
      else none
  | fuel + 1, .objRest acc first, cs =>
    match skipWs cs with
    | [] => none
    | c :: rest =>
      if c = rbrace ∧ first then some (.jobj acc, rest)
      else
        let afterComma : List Char :=
          if first then c :: rest
          else if c = ',' then rest else []
        if ¬ first ∧ c = rbrace then some (.jobj acc, rest)
        else if ¬ first ∧ c ≠ ',' then none
        else
          match skipWs afterComma with
          | [] => none
          | k :: krest =>
            if k = '"' then
              match parseStringBody (krest.length + 1) krest with
              | none => none
              | some (keyChars, r1) =>
                match skipWs r1 with
                | ':' :: r2 =>
                  match parseRun fuel .value r2 with
                  | none => none
                  | some (v, r3) =>
                    parseRun fuel
                      (.objRest (dictInsert acc keyChars.asString v) false) r3
                | _ => none
            else none
  | fuel + 1, .arrRest acc first, cs =>
    match skipWs cs with
    | [] => none
    | c :: rest =>
      if c = ']' ∧ first then some (.jarr acc, rest)
      else if ¬ first ∧ c = ']' then some (.jarr acc, rest)
      else if ¬ first ∧ c ≠ ',' then none
      else
        let body : List Char := if first then c :: rest else rest
        match parseRun fuel .value body with
        | none => none
        | some (v, r1) => parseRun fuel (.arrRest (acc ++ [v]) false) r1

/-- Embedding of Python's `json.loads`: parse one JSON value and require
that only whitespace follows (otherwise Python raises `Extra data`, i.e.
`JSONDecodeError`, modelled as `none`). -/
def json_loads (s : String) : Option JVal :=
  match parseRun (2 * s.length + 2) .value s.toList with
  | some (v, rest) => if skipWs rest = [] then some v else none
  | none => none

/-- Characters Python's `str.strip()` removes (ASCII whitespace; the claims
in scope only exercise these). -/
def isPyWs (c : Char) : Bool :=
  c = ' ' || c = '\t' || c = '\n' || c = '\r' || c = '\x0B' || c = '\x0C'

/-- Embedding of Python's `str.strip()`. -/
def pyStrip (s : String) : String :=
  (((s.toList.dropWhile isPyWs).reverse.dropWhile isPyWs).reverse).asString

/-- Embedding of Python's `s.endswith("?")`: the last character is `?`. -/
def endswithQmark (s : String) : Bool :=
  s.toList.getLast? = some '?'

/-- Scanner for `re.search` with pattern quote `([^"]+?)` quote (a quoted
run ending in a question mark), already inside an opening quote: on the
closing quote the accumulated content matches when it is nonempty and ends
with `?`; otherwise that quote becomes the next opening quote, exactly the
restart position the regex engine would try next. -/
def quotedInside (acc : List Char) : List Char → Option String
  | [] => none
  | c :: cs =>
    if c = '"' then
      if acc.getLast? = some '?' then some acc.asString
      else quotedInside [] cs
    else quotedInside (acc ++ [c]) cs

/-- Skip to the first quote and hand over to `quotedInside`. -/
def quotedOpen : List Char → Option String
  | [] => none
  | c :: cs => if c = '"' then quotedInside [] cs else quotedOpen cs

/-- `re.search` of the source's quoted-question pattern, group 1. -/
def findQuotedQuestion (s : String) : Option String :=
  quotedOpen s.toList

/-- Scanner for `re.search('([^.!?]+?)', text)` with the `?` escaped as in
the source: a maximal run of characters other than `.`, `!`, `?`,
immediately followed by `?`; the leftmost such match, including the
terminating question mark (group 1 of the pattern). -/
def sentenceScan (acc : List Char) : List Char → Option String
  | [] => none
  | c :: cs =>
    if c = '?' then
      if acc = [] then sentenceScan [] cs
      else some (acc ++ ['?']).asString
    else if c = '.' ∨ c = '!' then sentenceScan [] cs
    else sentenceScan (acc ++ [c]) cs

/-- `re.search` of the source's sentence-question pattern, group 1. -/
def findSentenceQuestion (s : String) : Option String :=
  sentenceScan [] s.toList

/-- The JSON branch of `extract_question_from_response`: `json.loads`
succeeds, the result is a dict, and it has a `question` key — in which case
the value of that key (of whatever JSON type) is returned. -/
def jsonQuestionField (t : String) : Option JVal :=
  match json_loads t with
  | some (.jobj entries) =>
    ((entries.find? (fun e => e.1 = "question")).map (fun e => e.2))
  | _ => none

/-- Embedding of `extract_question_from_response` (backend.py lines 62-83):
try JSON with a `question` field, then the quoted-question regex, then the
sentence-question regex (result stripped), else the whole stripped text.
The JSON branch can yield a non-string Python value, which the source
returns unchanged. -/
def extract_question_from_response (response_text : String) : JVal :=
  match jsonQuestionField response_text with
  | some v => v
  | none =>
    match findQuotedQuestion response_text with
    | some q => .jstr q
    | none =>
      match findSentenceQuestion response_text with
      | some q => .jstr (pyStrip q)
      | none => .jstr (pyStrip response_text)

/-- The post-extraction step both callers of
`extract_question_from_response` perform (backend.py lines 147-150 and
263-266): append `?` when the extracted question does not end with one.
`none` models the `AttributeError` the source raises at
`first_question.endswith` when the extracted value is not a string, which
the surrounding `except Exception` turns into an HTTP 500. -/
def ensureQuestionMark (v : JVal) : Option String :=
  match v with
  | .jstr q => some (if endswithQmark q then q else q ++ "?")
  | _ => none

/-- Extraction followed by the callers' question-mark completion: the full
question-extraction contract of the spec. -/
def questionPipeline (raw : String) : Option String :=
  ensureQuestionMark (extract_question_from_response raw)

/-- The process-wide `InterviewState` singleton of backend.py lines 52-60.
`conversation_history` holds (role, content) pairs. -/
structure InterviewState where
  questions : List String
  answers : List String
  current_question : Nat
  resume_text : String
  conversation_history : List (String × String)
deriving DecidableEq

/-- The state `InterviewState.__init__` builds. -/
def initialState : InterviewState :=
  { questions := [], answers := [], current_question := 0,
    resume_text := "", conversation_history := [] }

/-- Which failure branch of a handler fired.  `validation` stands for the
input/state checks the source raises as HTTP 400, `upstream` for
collaborator failures and response-processing errors raised as HTTP 500
(the broad `except Exception` rewrapping of status codes is abstracted
away; the detail string names the branch). -/
inductive ApiError where
  | validation : String → ApiError
  | upstream : String → ApiError
deriving DecidableEq

/-- Boolean success test for a handler outcome. -/
def resultOk {α : Type} : Except ApiError α → Bool
  | .ok _ => true
  | .error _ => false

/-- Embedding of `upload_resume` (backend.py lines 85-170).
`pdfText` is the outcome of the file checks plus PyPDF2 extraction
(`none` = non-PDF filename, empty upload, unreadable PDF or failed text
extraction — all of which return before any state is touched); `gen` is the
outcome of the Groq first-question call (`none` = API failure).  On a
non-empty extracted text the five state fields are reset (lines 116-120)
before the model is consulted, so a generation failure leaves a reset
state with no questions. -/
def upload_resume (s : InterviewState) (pdfText : Option String)
    (gen : Option String) : InterviewState × Except ApiError (String × String) :=
  match pdfText with
  | none => (s, .error (.validation "Invalid or unreadable PDF"))
  | some text =>
    if pyStrip text = "" then
      (s, .error (.validation "No text content found in PDF"))
    else
      let s1 : InterviewState :=
        { resume_text := text, conversation_history := [], questions := [],
          answers := [], current_question := 0 }
      match gen with
      | none => (s1, .error (.upstream "Error calling Groq API"))
      | some raw =>
        match questionPipeline (pyStrip raw) with
        | none => (s1, .error (.upstream "Error processing question"))
        | some first_question =>
          ({ s1 with questions := [first_question],
                     conversation_history := [("assistant", first_question)] },
           .ok ("Resume processed successfully", first_question))

/-- Result of `get_next_question`: either the completion signal or a
question with its 1-based number and the total (the synthesized audio bytes
are collaborator output, abstracted away). -/
inductive NextQuestionResponse where
  | completed : NextQuestionResponse
  | question : String → Nat → Nat → NextQuestionResponse
deriving DecidableEq

/-- Embedding of `get_next_question` (backend.py lines 172-205).  `ttsOk`
is the gTTS collaborator outcome.  The handler never assigns to the
session: every branch returns the state unchanged.  The completion check
`current_question >= 3` runs before any question lookup or audio
generation. -/
def get_next_question (s : InterviewState) (ttsOk : Bool) :
    InterviewState × Except ApiError NextQuestionResponse :=
  if s.questions = [] then
    (s, .error (.validation "No questions available. Please upload a resume first."))
  else if 3 ≤ s.current_question then
    (s, .ok .completed)
  else
    match s.questions.get? s.current_question with
    | none => (s, .error (.upstream "list index out of range"))
    | some question =>
      if ttsOk then
        (s, .ok (.question question (s.current_question + 1) 3))
      else (s, .error (.upstream "Error generating audio for question"))

/-- Embedding of `transcribe_audio` (backend.py lines 207-285).
`transcript?` is the combined outcome of the request checks and the
Deepgram call (`none` = missing/empty file or transcription failure, all
before any state is touched); `gen` is the Groq follow-up call outcome,
consulted only when `current_question < 2`.  The answer and its history
entry are appended first (lines 227-228).  Building the conversation
context indexes `questions[i]` for every recorded answer, so it raises
`IndexError` when there are more answers than questions; that, a failed
model call, and a non-string extracted question all take the
`except` path at line 272, which raises before the
`current_question += 1` at line 276 — the recorded answer is kept but the
counter does not advance. -/
def transcribe_audio (s : InterviewState) (transcript? : Option String)
    (gen : Option String) : InterviewState × Except ApiError String :=
  match transcript? with
  | none => (s, .error (.upstream "Error transcribing audio"))
  | some transcript =>
    let s1 : InterviewState :=
      { s with answers := s.answers ++ [transcript],
               conversation_history :=
                 s.conversation_history ++ [("user", transcript)] }
    if s1.current_question < 2 then
      if s1.questions.length < s1.answers.length then
        (s1, .error (.upstream "Error generating next question"))
      else
        match gen with
        | none => (s1, .error (.upstream "Error generating next question"))
        | some raw =>
          match questionPipeline (pyStrip raw) with
          | none => (s1, .error (.upstream "Error generating next question"))
          | some next_question =>
            ({ s1 with
                questions := s1.questions ++ [next_question],
                conversation_history :=
                  s1.conversation_history ++ [("assistant", next_question)],
                current_question := s1.current_question + 1 },
             .ok transcript)
    else
      ({ s1 with current_question := s1.current_question + 1 }, .ok transcript)

/-- Python's `key in value` membership test on a parsed JSON value:
dict → key lookup, list → element equality against the string, string →
substring containment; `none` models the `TypeError` other types raise. -/
def strContains (needle hay : List Char) : Bool :=
  match hay with
  | [] => needle = []
  | _ :: t => needle.isPrefixOf hay || strContains needle t

/-- See `strContains`; Python `in` on a `JVal`. -/
def pyIn (key : String) : JVal → Option Bool
  | .jobj entries => some (entries.any (fun e => e.1 = key))
  | .jarr elems =>
    some (elems.any (fun v => match v with | .jstr t => t = key | _ => false))
  | .jstr t => some (strContains key.toList t.toList)
  | _ => none

/-- The required feedback keys, in the order the source checks them. -/
def required_keys : List String :=
  ["score", "technical_feedback", "communication_feedback", "improvements"]

/-- `all(key in feedback for key in required_keys)`: short-circuit
conjunction of `pyIn` over the required keys, `none` when a membership test
raises `TypeError`. -/
def allKeysIn (v : JVal) : List String → Option Bool
  | [] => some true
  | k :: ks =>
    match pyIn k v with
    | none => none
    | some false => some false
    | some true => allKeysIn v ks

/-- First index of a character, Python `str.find` (with `-1` as `none`). -/
def charFind (cs : List Char) (c : Char) : Option Nat :=
  match cs with
  | [] => none
  | x :: xs => if x = c then some 0 else (charFind xs c).map (· + 1)

/-- Last index of a character, Python `str.rfind` (with `-1` as `none`). -/
def charRFind (cs : List Char) (c : Char) : Option Nat :=
  (charFind cs.reverse c).map (fun i => cs.length - 1 - i)

/-- Python slice `cs[a:b]`. -/
def pySlice (cs : List Char) (a b : Nat) : List Char :=
  (cs.drop a).take (b - a)

/-- The feedback-extraction steps of `generate_feedback` (backend.py lines
324-342) on the stripped model text: slice from the first `x7b` brace to
the last `x7d` brace inclusive, `json.loads` the slice, then require all
four keys via Python `in`.  Error constructors name the raising branch
(missing braces and missing keys raise `ValueError`, an unparseable slice
raises `JSONDecodeError`, a `TypeError` from `in` is caught by the outer
broad handler; all surface as HTTP 500). -/
def extract_feedback (response_content : String) : Except ApiError JVal :=
  let cs := response_content.toList
  match charFind cs lbrace, charRFind cs rbrace with
  | some start_idx, some end_idx =>
    let json_str := (pySlice cs start_idx (end_idx + 1)).asString
    match json_loads json_str with
    | none => .error (.upstream "Error parsing feedback")
    | some feedback =>
      match allKeysIn feedback required_keys with
      | none => .error (.upstream "Error generating feedback")
      | some true => .ok feedback
      | some false =>
        .error (.upstream "Invalid feedback format: Missing required keys in feedback response")
  | _, _ =>
    .error (.upstream "Invalid feedback format: Could not find JSON object in response")

/-- Embedding of `generate_feedback` (backend.py lines 287-357).  `gen` is
the Groq evaluation call outcome.  The zero-answer check of line 290 fires
first; building the Q/A transcript for the prompt indexes `questions[i]`
for every answer (lines 295-297) and raises `IndexError` when answers
outnumber questions.  No branch assigns to the session state. -/
def generate_feedback (s : InterviewState) (gen : Option String) :
    InterviewState × Except ApiError JVal :=
  if s.answers.length = 0 then
    (s, .error (.validation "No interview answers to evaluate"))
  else if s.questions.length < s.answers.length then
    (s, .error (.upstream "list index out of range"))
  else
    match gen with
    | none => (s, .error (.upstream "Error generating feedback"))
    | some raw => (s, extract_feedback (pyStrip raw))

/-- One client-driven operation together with its collaborator outcomes. -/
inductive Op where
  | upload : Option String → Option String → Op
  | submit : Option String → Option String → Op
  | nextQ : Bool → Op
  | feedback : Option String → Op

/-- The state after one operation (the handler's response is dropped). -/
def applyOp (s : InterviewState) : Op → InterviewState
  | .upload p g => (upload_resume s p g).1
  | .submit t g => (transcribe_audio s t g).1
  | .nextQ b => (get_next_question s b).1
  | .feedback g => (generate_feedback s g).1

/-- Run a sequence of operations from a given state. -/
def runOps (s : InterviewState) (ops : List Op) : InterviewState :=
  ops.foldl applyOp s

/-- A session state reachable from the fresh singleton by some sequence of
the four operations with arbitrary collaborator outcomes. -/
def Reachable (s : InterviewState) : Prop :=
  ∃ ops : List Op, runOps initialState ops = s

/-- States reachable when each operation is only issued while the guard
`G` holds of the current state — used to express invariants that hold for
disciplined clients only. -/
inductive ReachableWhen (G : InterviewState → Op → Prop) : InterviewState → Prop where
  | init : ReachableWhen G initialState
  | step {s : InterviewState} (op : Op) :
      ReachableWhen G s → G s op → ReachableWhen G (applyOp s op)

/-- The spec's `TOTAL_QUESTIONS` constant: the fixed three-round protocol
(the source writes the literals `3` and `2 = 3 - 1` inline). -/
def TOTAL_QUESTIONS : Nat := 3

/-- Is a parsed Python value a string? -/
def JVal.isStrB : JVal → Bool
  | .jstr _ => true
  | _ => false

/-- Field presence as the spec's feedback contract words it: a required
field is present when the parsed value is an object carrying that key. -/
def jsonHasField (v : JVal) (k : String) : Bool :=
  match v with
  | .jobj entries => entries.any (fun e => e.1 = k)
  | _ => false

/-- The feedback-extraction contract in the spec's own words (§4.1), for
comparison with the source-derived `extract_feedback`: slice from the
first opening brace to the last closing brace inclusive, parse, succeed
exactly when the parse succeeds and none of the four required fields is
absent. -/
def feedback_extraction_spec (t : String) : Option JVal :=
  match charFind t.toList lbrace, charRFind t.toList rbrace with
  | some i, some j =>
    match json_loads ((pySlice t.toList i (j + 1)).asString) with
    | some v =>
      if required_keys.all (fun k => jsonHasField v k) then some v else none
    | none => none
  | _, _ => none

/-- The spec's "`score` in `[0, 100]`" reading of a feedback record. -/
def scoreInRange (v : JVal) : Bool :=
  match v with
  | .jobj entries =>
    match (entries.find? (fun e => e.1 = "score")).map (fun e => e.2) with
    | some (JVal.jint n) => decide (0 ≤ n ∧ n ≤ 100)
    | some (JVal.jfloat q) => decide (0 ≤ q ∧ q ≤ 100)
    | _ => false
  | _ => false

/-- Client discipline: `submitAnswer` is only issued while the interview is
incomplete (`currentIndex < TOTAL_QUESTIONS`). -/
def submitBelowTotal (s : InterviewState) : Op → Prop
  | .submit _ _ => s.current_question < TOTAL_QUESTIONS
  | _ => True

/-- Client discipline: `submitAnswer` is only issued while an unanswered
question is pending. -/
def submitWithPending (s : InterviewState) : Op → Prop
  | .submit _ _ => s.answers.length < s.questions.length
  | _ => True

/-- State after one successful résumé upload. -/
def uploadedState : InterviewState :=
  runOps initialState [Op.upload (some "resume") (some "Q1?")]

/-- A successful upload followed by one answered round with a successful
follow-up generation. -/
def answeredState : InterviewState :=
  runOps initialState
    [Op.upload (some "resume") (some "Q1?"), Op.submit (some "a1") (some "Q2?")]

/-- A full happy-path interview: successful upload, then three successful
`submitAnswer` rounds (the third generates no follow-up). -/
def happyOps : List Op :=
  [Op.upload (some "resume") (some "Q1?"), Op.submit (some "a1") (some "Q2?"),
   Op.submit (some "a2") (some "Q3?"), Op.submit (some "a3") none]

/-- See `happyOps`. -/
def happyState : InterviewState := runOps initialState happyOps

/-- `happyOps` followed by a fourth `submitAnswer` after completion. -/
def overrunOps : List Op := happyOps ++ [Op.submit (some "a4") none]

/-- A model evaluation whose score lies outside `[0, 100]`. -/
def oversizedScoreRaw : String :=
  "\x7b\"score\": 150, \"technical_feedback\": \"t\", \"communication_feedback\": \"c\", \"improvements\": \"i\"\x7d"

/-- The record `oversizedScoreRaw` parses to. -/
def oversizedScoreFeedback : JVal :=
  JVal.jobj [("score", JVal.jint 150), ("technical_feedback", JVal.jstr "t"),
    ("communication_feedback", JVal.jstr "c"), ("improvements", JVal.jstr "i")]

/-- The spec's feedback-extraction round-trip input. -/
def feedbackVector : String :=
  "Sure! \x7b\"score\": 72, \"technical_feedback\": \"ok\", \"communication_feedback\": \"fine\", \"improvements\": \"more depth\"\x7d Thanks."

/-- The record embedded in `feedbackVector`. -/
def feedbackVectorObj : JVal :=
  JVal.jobj [("score", JVal.jint 72), ("technical_feedback", JVal.jstr "ok"),
    ("communication_feedback", JVal.jstr "fine"), ("improvements", JVal.jstr "more depth")]

/- ------------------------------------------------------------------ -/
/- Helper lemmas about the operations and the reachability relation.  -/
/- ------------------------------------------------------------------ -/

theorem get_next_question_fst (s : InterviewState) (b : Bool) :
    (get_next_question s b).1 = s := by
  unfold get_next_question
  repeat' first | rfl | split

theorem generate_feedback_fst (s : InterviewState) (g : Option String) :
    (generate_feedback s g).1 = s := by
  unfold generate_feedback
  repeat' first | rfl | split

theorem upload_state_cases (s : InterviewState) (p g : Option String) :
    (upload_resume s p g).1 = s ∨
    ((upload_resume s p g).1.questions = [] ∧ (upload_resume s p g).1.answers = [] ∧
      (upload_resume s p g).1.current_question = 0) ∨
    (∃ q text, (upload_resume s p g).1 =
      { questions := [q], answers := [], current_question := 0, resume_text := text,
        conversation_history := [("assistant", q)] }) := by
  unfold upload_resume
  cases p with
  | none => left; rfl
  | some text =>
    dsimp only
    by_cases he : pyStrip text = ""
    · rw [if_pos he]; left; rfl
    · rw [if_neg he]
      cases g with
      | none => right; left; exact ⟨rfl, rfl, rfl⟩
      | some raw =>
        dsimp only
        cases hq : questionPipeline (pyStrip raw) with
        | none => right; left; exact ⟨rfl, rfl, rfl⟩
        | some q => right; right; exact ⟨q, text, rfl⟩

theorem transcribe_state_cases (s : InterviewState) (t : String) (g : Option String) :
    (transcribe_audio s (some t) g).1.answers = s.answers ++ [t] ∧
    (transcribe_audio s (some t) g).1.resume_text = s.resume_text ∧
    (((transcribe_audio s (some t) g).1.questions = s.questions ∧
      (transcribe_audio s (some t) g).1.current_question = s.current_question ∧
      resultOk (transcribe_audio s (some t) g).2 = false) ∨
     (∃ q, (transcribe_audio s (some t) g).1.questions = s.questions ++ [q] ∧
      (transcribe_audio s (some t) g).1.current_question = s.current_question + 1 ∧
      s.current_question < 2 ∧ resultOk (transcribe_audio s (some t) g).2 = true) ∨
     ((transcribe_audio s (some t) g).1.questions = s.questions ∧
      (transcribe_audio s (some t) g).1.current_question = s.current_question + 1 ∧
      2 ≤ s.current_question ∧ resultOk (transcribe_audio s (some t) g).2 = true)) := by
  unfold transcribe_audio
  dsimp only
  by_cases h2 : s.current_question < 2
  · rw [if_pos h2]
    by_cases hlen : s.questions.length < (s.answers ++ [t]).length
    · rw [if_pos hlen]
      exact ⟨rfl, rfl, Or.inl ⟨rfl, rfl, rfl⟩⟩
    · rw [if_neg hlen]
      cases g with
      | none => exact ⟨rfl, rfl, Or.inl ⟨rfl, rfl, rfl⟩⟩
      | some raw =>
        dsimp only
        cases hq : questionPipeline (pyStrip raw) with
        | none => exact ⟨rfl, rfl, Or.inl ⟨rfl, rfl, rfl⟩⟩
        | some q => exact ⟨rfl, rfl, Or.inr (Or.inl ⟨q, rfl, rfl, h2, rfl⟩)⟩
  · rw [if_neg h2]
    exact ⟨rfl, rfl, Or.inr (Or.inr ⟨rfl, rfl, Nat.le_of_not_lt h2, rfl⟩)⟩

theorem transcribe_none_fst (s : InterviewState) (g : Option String) :
    (transcribe_audio s none g).1 = s := rfl

theorem runOps_inv {Inv : InterviewState → Prop}
    (hstep : ∀ s op, Inv s → Inv (applyOp s op)) :
    ∀ (ops : List Op) (s : InterviewState), Inv s → Inv (runOps s ops) := by
  intro ops
  induction ops with
  | nil => intro s h; exact h
  | cons op rest ih => intro s h; exact ih (applyOp s op) (hstep s op h)

theorem reachable_inv {Inv : InterviewState → Prop}
    (hinit : Inv initialState) (hstep : ∀ s op, Inv s → Inv (applyOp s op)) :
    ∀ s, Reachable s → Inv s := by
  rintro s ⟨ops, rfl⟩
  exact runOps_inv hstep ops initialState hinit

theorem reachableWhen_inv {G : InterviewState → Op → Prop}
    {Inv : InterviewState → Prop} (hinit : Inv initialState)
    (hstep : ∀ s op, Inv s → G s op → Inv (applyOp s op)) :
    ∀ s, ReachableWhen G s → Inv s := by
  intro s h
  induction h with
  | init => exact hinit
  | step op hr hg ih => exact hstep _ op ih hg

theorem applyOp_nonempty (s : InterviewState) (op : Op)
    (ih : 1 ≤ s.current_question → s.questions ≠ []) :
    1 ≤ (applyOp s op).current_question → (applyOp s op).questions ≠ [] := by
  cases op with
  | upload p g =>
    dsimp only [applyOp]
    rcases upload_state_cases s p g with h | ⟨hq, _, hc⟩ | ⟨q, text, h⟩
    · rw [h]; exact ih
    · intro hge; rw [hc] at hge; omega
    · rw [h]; intro _; simp
  | submit t g =>
    dsimp only [applyOp]
    cases t with
    | none => rw [transcribe_none_fst]; exact ih
    | some tr =>
      obtain ⟨ha, hr, hcase⟩ := transcribe_state_cases s tr g
      rcases hcase with ⟨hq, hc, _⟩ | ⟨q, hq, hc, h2, _⟩ | ⟨hq, hc, h2, _⟩
      · intro hge; rw [hq]; rw [hc] at hge; exact ih hge
      · intro _; rw [hq]; simp
      · intro _; rw [hq]; exact ih (by omega)
  | nextQ b =>
    dsimp only [applyOp]; rw [get_next_question_fst]; exact ih
  | feedback g =>
    dsimp only [applyOp]; rw [generate_feedback_fst]; exact ih

theorem reachable_nonempty :
    ∀ s, Reachable s → 1 ≤ s.current_question → s.questions ≠ [] :=
  reachable_inv (by intro h; exact absurd h (by decide)) applyOp_nonempty

theorem applyOp_le3 (s : InterviewState) (op : Op)
    (ih : s.current_question ≤ 3) (hg : submitBelowTotal s op) :
    (applyOp s op).current_question ≤ 3 := by
  cases op with
  | upload p g =>
    dsimp only [applyOp]
    rcases upload_state_cases s p g with h | ⟨_, _, hc⟩ | ⟨q, text, h⟩
    · rw [h]; exact ih
    · omega
    · rw [h]; simp
  | submit t g =>
    have hg' : s.current_question < TOTAL_QUESTIONS := hg
    dsimp only [applyOp]
    cases t with
    | none => rw [transcribe_none_fst]; exact ih
    | some tr =>
      obtain ⟨ha, hr, hcase⟩ := transcribe_state_cases s tr g
      rcases hcase with ⟨hq, hc, _⟩ | ⟨q, hq, hc, h2, _⟩ | ⟨hq, hc, h2, _⟩ <;>
        rw [hc] <;> [exact ih; omega; (unfold TOTAL_QUESTIONS at hg'; omega)]
  | nextQ b =>
    dsimp only [applyOp]; rw [get_next_question_fst]; exact ih
  | feedback g =>
    dsimp only [applyOp]; rw [generate_feedback_fst]; exact ih

theorem reachableWhen_le3 :
    ∀ s, ReachableWhen submitBelowTotal s → s.current_question ≤ 3 :=
  reachableWhen_inv (by exact Nat.zero_le 3) applyOp_le3

theorem applyOp_qlen (s : InterviewState) (op : Op)
    (ih : s.questions.length ≤ s.current_question + 1) :
    (applyOp s op).questions.length ≤ (applyOp s op).current_question + 1 := by
  cases op with
  | upload p g =>
    dsimp only [applyOp]
    rcases upload_state_cases s p g with h | ⟨hq, _, hc⟩ | ⟨q, text, h⟩
    · rw [h]; exact ih
    · rw [hq]; simp
    · rw [h]; simp
  | submit t g =>
    dsimp only [applyOp]
    cases t with
    | none => rw [transcribe_none_fst]; exact ih
    | some tr =>
      obtain ⟨ha, hr, hcase⟩ := transcribe_state_cases s tr g
      rcases hcase with ⟨hq, hc, _⟩ | ⟨q, hq, hc, h2, _⟩ | ⟨hq, hc, h2, _⟩ <;>
        rw [hq, hc]
      · exact ih
      · simp only [List.length_append, List.length_cons, List.length_nil]; omega
      · omega
  | nextQ b =>
    dsimp only [applyOp]; rw [get_next_question_fst]; exact ih
  | feedback g =>
    dsimp only [applyOp]; rw [generate_feedback_fst]; exact ih

theorem reachable_qlen :
    ∀ s, Reachable s → s.questions.length ≤ s.current_question + 1 :=
  reachable_inv (by simp [initialState]) applyOp_qlen

theorem applyOp_balance (s : InterviewState) (op : Op)
    (ih : s.answers.length ≤ s.questions.length) (hg : submitWithPending s op) :
    (applyOp s op).answers.length ≤ (applyOp s op).questions.length := by
  cases op with
  | upload p g =>
    dsimp only [applyOp]
    rcases upload_state_cases s p g with h | ⟨hq, ha, _⟩ | ⟨q, text, h⟩
    · rw [h]; exact ih
    · rw [hq, ha]
    · rw [h]; simp
  | submit t g =>
    have hg' : s.answers.length < s.questions.length := hg
    dsimp only [applyOp]
    cases t with
    | none => rw [transcribe_none_fst]; exact ih
    | some tr =>
      obtain ⟨ha, hr, hcase⟩ := transcribe_state_cases s tr g
      rcases hcase with ⟨hq, _, _⟩ | ⟨q, hq, _, _, _⟩ | ⟨hq, _, _, _⟩ <;>
        rw [ha, hq] <;> simp only [List.length_append, List.length_cons, List.length_nil] <;> omega
  | nextQ b =>
    dsimp only [applyOp]; rw [get_next_question_fst]; exact ih
  | feedback g =>
    dsimp only [applyOp]; rw [generate_feedback_fst]; exact ih

theorem reachableWhen_balance :
    ∀ s, ReachableWhen submitWithPending s → s.answers.length ≤ s.questions.length :=
  reachableWhen_inv (by exact Nat.le_refl 0) applyOp_balance

theorem get_next_question_completed (s : InterviewState)
    (hne : s.questions ≠ []) (h3 : 3 ≤ s.current_question) (b : Bool) :
    (get_next_question s b).2 = Except.ok NextQuestionResponse.completed := by
  unfold get_next_question
  rw [if_neg hne, if_pos h3]

set_option maxRecDepth 10000

theorem endswithQmark_append (s : String) : endswithQmark (s ++ "?") = true := by
  have h : (s ++ "?").toList = s.toList ++ ['?'] := by
    simp [String.toList, String.data_append]
  simp [endswithQmark, h]

theorem extract_feedback_ok_keys (t : String) (v : JVal)
    (h : extract_feedback t = Except.ok v) :
    allKeysIn v required_keys = some true := by
  unfold extract_feedback at h
  dsimp only at h
  repeat' split at h
  all_goals first
    | exact Except.noConfusion h
    | (injection h with h2; rw [← h2]; assumption)

theorem charFind_spec (cs : List Char) (c : Char) :
    ∀ i, charFind cs c = some i → i < cs.length ∧ cs.get? i = some c := by
  induction cs with
  | nil => intro i h; cases h
  | cons x xs ih =>
    intro i h
    unfold charFind at h
    by_cases hx : x = c
    · rw [if_pos hx] at h
      injection h with h2
      subst h2
      exact ⟨Nat.succ_pos _, by simp [hx]⟩
    · rw [if_neg hx] at h
      cases hf : charFind xs c with
      | none => rw [hf] at h; cases h
      | some j =>
        rw [hf] at h
        injection h with h2
        subst h2
        obtain ⟨hlt, hg⟩ := ih j hf
        exact ⟨by simpa using hlt, by simpa using hg⟩

theorem parseRun_objRest_jobj :
    ∀ (fuel : Nat) (acc : List (String × JVal)) (first : Bool) (cs : List Char)
      (v : JVal) (r : List Char),
      parseRun fuel (PMode.objRest acc first) cs = some (v, r) →
      ∃ es, v = JVal.jobj es := by
  intro fuel
  induction fuel with
  | zero => intro acc first cs v r h; cases h
  | succ n ih =>
    intro acc first cs v r h
    unfold parseRun at h
    cases hs : skipWs cs with
    | nil => rw [hs] at h; cases h
    | cons c rest =>
      rw [hs] at h
      dsimp only at h
      by_cases hc1 : c = rbrace ∧ first = true
      · rw [if_pos hc1] at h
        injection h with h2
        exact ⟨acc, (congrArg Prod.fst h2).symm⟩
      · rw [if_neg hc1] at h
        by_cases hc2 : ¬ first = true ∧ c = rbrace
        · rw [if_pos hc2] at h
          injection h with h2
          exact ⟨acc, (congrArg Prod.fst h2).symm⟩
        · rw [if_neg hc2] at h
          by_cases hc3 : ¬ first = true ∧ c ≠ ','
          · rw [if_pos hc3] at h; cases h
          · rw [if_neg hc3] at h
            repeat' split at h
            all_goals try cases h
            all_goals exact ih _ _ _ _ _ h

theorem parseRun_value_lbrace (fuel : Nat) (rest : List Char) (v : JVal) (r : List Char)
    (h : parseRun fuel PMode.value (lbrace :: rest) = some (v, r)) :
    ∃ es, v = JVal.jobj es := by
  cases fuel with
  | zero => cases h
  | succ n =>
    unfold parseRun at h
    have hws : skipWs (lbrace :: rest) = lbrace :: rest := by
      rw [skipWs, if_neg (by decide)]
    rw [hws] at h
    dsimp only at h
    rw [if_neg (by decide : ¬ (lbrace = '"'))] at h
    rw [if_pos rfl] at h
    exact parseRun_objRest_jobj n [] true rest v r h

theorem json_loads_lbrace (s : String) (v : JVal)
    (hhead : s.toList.head? = some lbrace) (h : json_loads s = some v) :
    ∃ es, v = JVal.jobj es := by
  unfold json_loads at h
  cases hcs : s.toList with
  | nil => rw [hcs] at hhead; cases hhead
  | cons c rest =>
    rw [hcs] at hhead h
    have hc : c = lbrace := by
      have h2 : some c = some lbrace := hhead
      injection h2
    subst hc
    cases hp : parseRun (2 * s.length + 2) PMode.value (lbrace :: rest) with
    | none => rw [hp] at h; cases h
    | some pr =>
      rw [hp] at h
      obtain ⟨v0, r0⟩ := pr
      dsimp only at h
      by_cases hr : skipWs r0 = []
      · rw [if_pos hr] at h
        injection h with h2
        subst h2
        exact parseRun_value_lbrace _ _ _ _ hp
      · rw [if_neg hr] at h; cases h

theorem allKeysIn_jobj (es : List (String × JVal)) :
    ∀ ks : List String, allKeysIn (JVal.jobj es) ks =
      some (ks.all (fun k => es.any (fun e => e.1 = k))) := by
  intro ks
  induction ks with
  | nil => rfl
  | cons k ks ih =>
    unfold allKeysIn
    dsimp only [pyIn]
    cases hk : es.any (fun e => e.1 = k) with
    | false => simp [hk]
    | true => dsimp only; rw [ih]; simp [hk]

theorem pySlice_head (cs : List Char) (i j : Nat) (c : Char)
    (hij : i ≤ j) (hget : cs.get? i = some c) :
    (pySlice cs i (j + 1)).head? = some c := by
  unfold pySlice
  have h2 : j + 1 - i = (j - i) + 1 := by omega
  rw [h2]
  have hd : (cs.drop i).head? = some c := by
    rw [List.head?_drop, ← List.get?_eq_getElem?]
    exact hget
  cases hcs : cs.drop i with
  | nil => rw [hcs] at hd; cases hd
  | cons x xs =>
    rw [hcs] at hd
    rw [List.take_succ_cons]
    exact hd

/- ------------------------------------------------------------------ -/
/- Claim theorems.                                                    -/
/- ------------------------------------------------------------------ -/

/-- Claim C1, counterexample: from the state after one successful upload,
a `submitAnswer` whose follow-up generation fails (Groq call errors at
`currentIndex = 0 < 2`) appends the answer but leaves `currentIndex` at 0
instead of advancing it to 1: the exception raised at backend.py line 274
skips the `current_question += 1` at line 276, so the claim that
`currentIndex` is incremented by exactly 1 even when follow-up generation
fails is false. -/
theorem submitAnswer_genFailure_counterexample :
    (transcribe_audio uploadedState (some "a1") none).1.answers =
      uploadedState.answers ++ ["a1"] ∧
    (transcribe_audio uploadedState (some "a1") none).1.current_question = 0 ∧
    uploadedState.current_question = 0 ∧
    resultOk (transcribe_audio uploadedState (some "a1") none).2 = false :=
  ⟨rfl, rfl, rfl, rfl⟩

/-- Claim C1 (amended): for every session state and transcript,
`submitAnswer` appends exactly one entry to `answers` (the recorded answer
is never rolled back), and increments `currentIndex` by exactly 1 precisely
when the call succeeds (follow-up generation succeeded, or none was needed
because `currentIndex ≥ 2`); when follow-up generation fails the answer is
kept but `currentIndex` is unchanged. -/
theorem submitAnswer_append_and_conditional_advance (s : InterviewState)
    (t : String) (g : Option String) :
    (transcribe_audio s (some t) g).1.answers = s.answers ++ [t] ∧
    (resultOk (transcribe_audio s (some t) g).2 = true →
      (transcribe_audio s (some t) g).1.current_question = s.current_question + 1) ∧
    (resultOk (transcribe_audio s (some t) g).2 = false →
      (transcribe_audio s (some t) g).1.current_question = s.current_question) := by
  obtain ⟨ha, hr, hcase⟩ := transcribe_state_cases s t g
  refine ⟨ha, ?_, ?_⟩ <;>
    rcases hcase with ⟨hq, hc, hok⟩ | ⟨q, hq, hc, h2, hok⟩ | ⟨hq, hc, h2, hok⟩ <;>
    intro h <;> rw [hok] at h <;> first | exact hc | cases h

/-- Claim C1, witness: the amended statement evaluated on a concrete
failing submission. -/
theorem submitAnswer_append_and_conditional_advance_witness :
    (transcribe_audio uploadedState (some "a1") none).1.answers =
      uploadedState.answers ++ ["a1"] ∧
    (resultOk (transcribe_audio uploadedState (some "a1") none).2 = true →
      (transcribe_audio uploadedState (some "a1") none).1.current_question =
        uploadedState.current_question + 1) ∧
    (resultOk (transcribe_audio uploadedState (some "a1") none).2 = false →
      (transcribe_audio uploadedState (some "a1") none).1.current_question =
        uploadedState.current_question) :=
  submitAnswer_append_and_conditional_advance uploadedState "a1" none

/-- Claim C2, counterexample: a fourth successful `submitAnswer` after the
interview completed is reachable and drives `currentIndex` to 4, outside
`[0, TOTAL_QUESTIONS]`: `transcribe_audio` has no completion guard and no
clamping, so the claimed invariant fails. -/
theorem currentIndex_overrun_counterexample :
    Reachable (runOps initialState overrunOps) ∧
    (runOps initialState overrunOps).current_question = TOTAL_QUESTIONS + 1 :=
  ⟨⟨overrunOps, rfl⟩, rfl⟩

/-- Claim C2 (amended): `currentIndex` (a natural number, hence never below
0) stays within `[0, TOTAL_QUESTIONS]` in every state reachable while
`submitAnswer` is only issued before completion
(`currentIndex < TOTAL_QUESTIONS`); without that client discipline a
post-completion `submitAnswer` pushes it past `TOTAL_QUESTIONS`. -/
theorem currentIndex_bounded_under_guard (s : InterviewState)
    (h : ReachableWhen submitBelowTotal s) :
    s.current_question ≤ TOTAL_QUESTIONS :=
  reachableWhen_le3 s h

/-- Claim C2, witness: the bound evaluated after an upload and a guarded
submission. -/
theorem currentIndex_bounded_under_guard_witness :
    (applyOp (applyOp initialState (Op.upload (some "resume") (some "Q1?")))
      (Op.submit (some "a1") (some "Q2?"))).current_question ≤ TOTAL_QUESTIONS :=
  currentIndex_bounded_under_guard _
    (ReachableWhen.step _ (ReachableWhen.step _ ReachableWhen.init trivial)
      (show (applyOp initialState (Op.upload (some "resume") (some "Q1?"))).current_question <
          TOTAL_QUESTIONS by decide))

/-- Claim C3, counterexample: a single `submitAnswer` from the fresh state
(no résumé ever uploaded — `transcribe_audio` does not check for one)
reaches a state with one answer and zero questions, violating
`len(answers) ≤ len(questions)`. -/
theorem answers_exceed_questions_counterexample :
    Reachable (runOps initialState [Op.submit (some "a1") none]) ∧
    (runOps initialState [Op.submit (some "a1") none]).questions.length <
      (runOps initialState [Op.submit (some "a1") none]).answers.length :=
  ⟨⟨[Op.submit (some "a1") none], rfl⟩, by decide⟩

/-- Claim C3 (amended): `len(questions) ≤ currentIndex + 1` holds in every
reachable state, and `len(answers) ≤ len(questions)` holds in every state
reachable while `submitAnswer` is only issued when an unanswered question
is pending (`len(answers) < len(questions)`); without that discipline
answers can outnumber questions. -/
theorem session_length_invariants :
    (∀ s, Reachable s → s.questions.length ≤ s.current_question + 1) ∧
    (∀ s, ReachableWhen submitWithPending s →
      s.answers.length ≤ s.questions.length) :=
  ⟨reachable_qlen, reachableWhen_balance⟩

/-- Claim C3, witness: both invariants evaluated on concrete reachable
states. -/
theorem session_length_invariants_witness :
    happyState.questions.length ≤ happyState.current_question + 1 ∧
    initialState.answers.length ≤ initialState.questions.length :=
  ⟨session_length_invariants.1 happyState ⟨happyOps, rfl⟩,
   session_length_invariants.2 initialState ReachableWhen.init⟩

/-- Claim C4, counterexample: on the input whose JSON `question` field is
the number 42, extraction returns that number and the question-mark
completion step fails (`endswith` on a non-string raises
`AttributeError`), so no output ending in `?` is produced and the claim
that the output always ends with `?` is false. -/
theorem question_extraction_nonstring_counterexample :
    extract_question_from_response ("\x7b\"question\": 42\x7d") = JVal.jint 42 ∧
    questionPipeline ("\x7b\"question\": 42\x7d") = none :=
  ⟨rfl, rfl⟩

/-- Claim C4 (amended): question extraction tries, in order, the JSON
`question` field, the first quoted substring ending in `?`, the first
`.`/`!`/`?`-free run terminated by `?` (trimmed), then the whole trimmed
text; whenever the extracted value is a string, a `?` is appended if
missing and the output ends with `?` — but a non-string JSON `question`
field aborts the pipeline instead of producing output.  The three
round-trip vectors of the spec evaluate as claimed. -/
theorem question_extraction_contract :
    (∀ s q, questionPipeline s = some q → endswithQmark q = true) ∧
    questionPipeline ("\x7b\"question\": \"What is a mutex?\"\x7d") =
      some "What is a mutex?" ∧
    questionPipeline ("Here is a question: \"Explain your caching design?\"") =
      some "Explain your caching design?" ∧
    questionPipeline ("Tell me about your last project") =
      some "Tell me about your last project?" := by
  refine ⟨?_, rfl, rfl, rfl⟩
  intro s q h
  unfold questionPipeline ensureQuestionMark at h
  cases hv : extract_question_from_response s <;> rw [hv] at h
  case jstr q0 =>
    dsimp only at h
    by_cases he : endswithQmark q0 = true
    · rw [if_pos he] at h; injection h with h2; rw [← h2]; exact he
    · rw [if_neg he] at h; injection h with h2; rw [← h2]; exact endswithQmark_append q0
  all_goals exact absurd h (by simp)

/-- Claim C4, witness: the universal part applied at a concrete input with
no question mark. -/
theorem question_extraction_contract_witness : endswithQmark "x?" = true :=
  question_extraction_contract.1 ("x") ("x?") rfl

/-- Claim C5: feedback extraction succeeds with record `v` exactly when the
spec-worded contract does — the substring from the first opening brace to
the last closing brace parses as structured data and none of the four
required fields is absent — and on the spec round-trip vector it returns
the embedded object exactly, ignoring the surrounding prose. -/
theorem feedback_extraction_contract :
    (∀ (t : String) (v : JVal),
      extract_feedback t = Except.ok v ↔ feedback_extraction_spec t = some v) ∧
    extract_feedback feedbackVector = Except.ok feedbackVectorObj := by
  refine ⟨?_, rfl⟩
  intro t v
  unfold extract_feedback feedback_extraction_spec
  dsimp only
  cases hf : charFind t.toList lbrace with
  | none => simp
  | some i =>
    cases hr : charRFind t.toList rbrace with
    | none => simp
    | some j =>
      dsimp only
      cases hj : json_loads ((pySlice t.toList i (j + 1)).asString) with
      | none => simp
      | some w =>
        have hobj : ∃ es, w = JVal.jobj es := by
          by_cases hij : i ≤ j
          · apply json_loads_lbrace ((pySlice t.toList i (j + 1)).asString) w _ hj
            show (pySlice t.toList i (j + 1)).head? = some lbrace
            exact pySlice_head t.toList i j lbrace hij
              (charFind_spec t.toList lbrace i hf).2
          · exfalso
            have hempty : pySlice t.toList i (j + 1) = [] := by
              unfold pySlice
              have h0 : j + 1 - i = 0 := by omega
              rw [h0]
              exact List.take_zero _
            rw [hempty] at hj
            cases hj
        obtain ⟨es, rfl⟩ := hobj
        dsimp only
        rw [allKeysIn_jobj]
        have hsame : (required_keys.all fun k => jsonHasField (JVal.jobj es) k) =
            (required_keys.all fun k => es.any (fun e => e.1 = k)) := rfl
        rw [hsame]
        cases hall : (required_keys.all fun k => es.any (fun e => e.1 = k)) with
        | false => simp
        | true =>
          dsimp only
          constructor
          · intro hh; injection hh with hh2; rw [hh2]; simp
          · intro hh
            rw [if_pos rfl] at hh
            injection hh with hh2
            rw [hh2]

/-- Claim C5, witness: the equivalence applied at the round-trip vector. -/
theorem feedback_extraction_contract_witness :
    feedback_extraction_spec feedbackVector = some feedbackVectorObj :=
  (feedback_extraction_contract.1 feedbackVector feedbackVectorObj).mp rfl

/-- Claim C6, counterexample: with one recorded answer, a model evaluation
carrying `score = 150` is returned as a success — the source checks the
four required keys but never validates the score range, so the claim that
a successful result has `score` in `[0, 100]` is false. -/
theorem feedback_score_range_counterexample :
    answeredState.answers = ["a1"] ∧
    (generate_feedback answeredState (some oversizedScoreRaw)).2 =
      Except.ok oversizedScoreFeedback ∧
    scoreInRange oversizedScoreFeedback = false :=
  ⟨rfl, rfl, rfl⟩

/-- Claim C6 (amended): `generateFeedback` with zero recorded answers fails
with the validation error, and any successful call was made with at least
one answer and returns a record in which all four required fields are
present; the score range `[0, 100]` is requested in the prompt but not
enforced by the code. -/
theorem generateFeedback_requirements :
    (∀ (s : InterviewState) (g : Option String), s.answers = [] →
      (generate_feedback s g).2 =
        Except.error (ApiError.validation "No interview answers to evaluate")) ∧
    (∀ (s : InterviewState) (g : Option String) (v : JVal),
      (generate_feedback s g).2 = Except.ok v →
      s.answers ≠ [] ∧ allKeysIn v required_keys = some true) := by
  constructor
  · intro s g h
    unfold generate_feedback
    rw [if_pos (by simp [h])]
  · intro s g v h
    unfold generate_feedback at h
    by_cases h0 : s.answers.length = 0
    · rw [if_pos h0] at h; exact Except.noConfusion h
    · rw [if_neg h0] at h
      refine ⟨fun hnil => h0 (by simp [hnil]), ?_⟩
      by_cases hlen : s.questions.length < s.answers.length
      · rw [if_pos hlen] at h; exact Except.noConfusion h
      · rw [if_neg hlen] at h
        cases g with
        | none => exact Except.noConfusion h
        | some raw =>
          dsimp only at h
          exact extract_feedback_ok_keys _ v h

/-- Claim C6, witness: both parts applied at concrete inputs. -/
theorem generateFeedback_requirements_witness :
    (generate_feedback initialState none).2 =
      Except.error (ApiError.validation "No interview answers to evaluate") ∧
    (answeredState.answers ≠ [] ∧
      allKeysIn feedbackVectorObj required_keys = some true) :=
  ⟨generateFeedback_requirements.1 initialState none rfl,
   generateFeedback_requirements.2 answeredState (some feedbackVector)
     feedbackVectorObj rfl⟩

/-- Claim C7: in every reachable state with
`currentIndex ≥ TOTAL_QUESTIONS` (in particular after a fresh session and
exactly three `submitAnswer` calls), `nextQuestion` returns the completion
signal whatever the TTS collaborator does (its result does not depend on
any model call: `get_next_question` takes no generation oracle), and a
`submitAnswer` at `currentIndex ≥ TOTAL_QUESTIONS - 1` — the third one —
generates no further question. -/
theorem completion_after_three_submits :
    (∀ s, Reachable s → TOTAL_QUESTIONS ≤ s.current_question →
      ∀ b, (get_next_question s b).2 = Except.ok NextQuestionResponse.completed) ∧
    (∀ (s : InterviewState) (t : String) (g : Option String),
      TOTAL_QUESTIONS - 1 ≤ s.current_question →
      (transcribe_audio s (some t) g).1.questions = s.questions) := by
  constructor
  · intro s hr h3 b
    have h1 : 1 ≤ s.current_question := le_trans (by decide) h3
    exact get_next_question_completed s (reachable_nonempty s hr h1) h3 b
  · intro s t g h2
    obtain ⟨ha, hres, hcase⟩ := transcribe_state_cases s t g
    rcases hcase with ⟨hq, _, _⟩ | ⟨q, hq, hc, hlt, _⟩ | ⟨hq, _, _, _⟩
    · exact hq
    · exact absurd hlt (by unfold TOTAL_QUESTIONS at h2; omega)
    · exact hq

/-- Claim C7, witness: the completion signal and the no-new-question
property evaluated on the concrete happy-path trace of three answered
rounds. -/
theorem completion_after_three_submits_witness :
    (get_next_question happyState true).2 =
      Except.ok NextQuestionResponse.completed ∧
    (transcribe_audio happyState (some "a4") none).1.questions =
      happyState.questions :=
  ⟨completion_after_three_submits.1 happyState ⟨happyOps, rfl⟩ (by decide) true,
   completion_after_three_submits.2 happyState "a4" none (by decide)⟩

/-- Claim C8: whatever the prior session state, a résumé submission that
succeeds leaves the session exactly in the freshly reset state — new résumé
text, the single newly generated question in `questions` and `history`,
empty `answers`, `currentIndex` 0 — so the resulting state is a function of
the submission's inputs alone and no value from the previous session
remains observable. -/
theorem upload_success_resets_session (s : InterviewState) (p g : Option String)
    (m q : String) (h : (upload_resume s p g).2 = Except.ok (m, q)) :
    ∃ text, p = some text ∧
      (upload_resume s p g).1 =
        { questions := [q], answers := [], current_question := 0,
          resume_text := text, conversation_history := [("assistant", q)] } := by
  cases p with
  | none => exact Except.noConfusion h
  | some text =>
    refine ⟨text, rfl, ?_⟩
    unfold upload_resume at h ⊢
    dsimp only at h ⊢
    by_cases he : pyStrip text = ""
    · rw [if_pos he] at h; exact Except.noConfusion h
    · rw [if_neg he] at h ⊢
      cases g with
      | none => exact Except.noConfusion h
      | some raw =>
        dsimp only at h ⊢
        cases hq : questionPipeline (pyStrip raw) with
        | none => rw [hq] at h; exact Except.noConfusion h
        | some q0 =>
          rw [hq] at h
          dsimp only at h
          injection h with h2
          have hq0 : q0 = q := congrArg Prod.snd h2
          rw [hq0]

/-- Claim C8, witness: a second successful upload on top of a completed
interview, evaluated concretely. -/
theorem upload_success_resets_session_witness :
    ∃ text, (some "resume2" : Option String) = some text ∧
      (upload_resume happyState (some "resume2") (some "New question?")).1 =
        { questions := ["New question?"], answers := [], current_question := 0,
          resume_text := text,
          conversation_history := [("assistant", "New question?")] } :=
  upload_success_resets_session happyState (some "resume2") (some "New question?")
    "Resume processed successfully" "New question?" rfl

/-- Claim C9, counterexample: on a JSON object whose `question` field holds
the number 5, extraction returns that number — a non-string value — so the
claim that extraction always returns a string is false (it does return
without raising). -/
theorem extraction_nonstring_value_counterexample :
    extract_question_from_response ("\x7b\"question\": 5\x7d") = JVal.jint 5 ∧
    JVal.isStrB (extract_question_from_response ("\x7b\"question\": 5\x7d")) = false :=
  ⟨rfl, rfl⟩

/-- Claim C9 (amended): extraction is total — for every input it returns a
value without raising — and that value is a string except in the one case
where the input parses as a JSON object with a `question` field, whose
value is returned unchanged (and may be a non-string). -/
theorem extraction_total_and_string_shape (s : String) :
    (∃ v, jsonQuestionField s = some v ∧ extract_question_from_response s = v) ∨
    (∃ q, extract_question_from_response s = JVal.jstr q) := by
  unfold extract_question_from_response
  cases h : jsonQuestionField s
  · right
    cases h2 : findQuotedQuestion s
    · cases h3 : findSentenceQuestion s
      · exact ⟨pyStrip s, rfl⟩
      · exact ⟨pyStrip _, rfl⟩
    · exact ⟨_, rfl⟩
  · left; exact ⟨_, rfl, rfl⟩

/-- Claim C10: `nextQuestion` never mutates the session: for every state
and TTS outcome — whether it returns a question, the completion signal, or
an error — all five session fields are unchanged. -/
theorem nextQuestion_no_mutation (s : InterviewState) (b : Bool) :
    (get_next_question s b).1.questions = s.questions ∧
    (get_next_question s b).1.answers = s.answers ∧
    (get_next_question s b).1.current_question = s.current_question ∧
    (get_next_question s b).1.resume_text = s.resume_text ∧
    (get_next_question s b).1.conversation_history = s.conversation_history := by
  rw [get_next_question_fst]
  exact ⟨rfl, rfl, rfl, rfl, rfl⟩

end GenAIInterview
